import Mathlib

/-!
Shallow embedding of the double-entry bookkeeping core
(`core/models.py`, `core/views.py`, `core/services/balance_sheet.py`,
`core/services/income_statement.py`, `core/migrations/0004_fill_line_no.py`).

Monetary amounts are `Decimal` with two fractional digits in the source;
addition, subtraction and comparison on them are exact, so they are
embedded as `Int` (cents).  Calendar dates are embedded as a `(year,
month, day)` record compared lexicographically.  Date *strings* are
abstracted by their parse behaviour.  For `mizan`, which parses with
`date.fromisoformat` inside a try/except, a string is an
`Option Date`: `some d` when parsing yields `d`, `none` when it raises
`ValueError`.  For `JournalEntryListView`, which parses with Django's
`parse_date`, the finer `DateStr` distinguishes a badly-formatted
string (`parse_date` returns `None`) from a well-formed-but-invalid
one such as "2026-02-30" (`parse_date` raises `ValueError`, which the
view does not catch).  `isoformat` of a date is a string that parses
back to that date.
-/

namespace MBSIS

/-- A calendar date (`datetime.date`): year, month, day. -/
structure Date where
  year : Nat
  month : Nat
  day : Nat
deriving DecidableEq, Repr

/-- Lexicographic `≤` on dates, matching Python `date` comparison. -/
def Date.le (a b : Date) : Bool :=
  if a.year ≠ b.year then decide (a.year < b.year)
  else if a.month ≠ b.month then decide (a.month < b.month)
  else decide (a.day ≤ b.day)

/-- First day of the month of `d` (`d.replace(day=1)` in `mizan`). -/
def Date.firstDay (d : Date) : Date :=
  { d with day := 1 }

/-- Account type tags (`Account.ASSET` = "AS", …, `Account.EXPENSE` = "EX"). -/
inductive AccountType where
  | asset
  | liability
  | equity
  | income
  | expense
deriving DecidableEq, Repr

/-- An `Account` row: unique code, display name, type tag.  The optional
parent link plays no part in the claims and is omitted. -/
structure Account where
  code : String
  name : String
  type : AccountType
deriving DecidableEq, Repr

/-- A `FiscalPeriod` row: `(year, month)` with an `is_closed` flag. -/
structure FiscalPeriod where
  year : Nat
  month : Nat
  is_closed : Bool
deriving DecidableEq, Repr

/-- Journal entry status (`JournalEntry.DRAFT` = "D", `POSTED` = "P"). -/
inductive Status where
  | draft
  | posted
deriving DecidableEq, Repr

/-- A `JournalLine` as seen from its owning entry: referenced account,
`line_no`, and the two amounts in cents. -/
structure ELine where
  account : Account
  line_no : Nat
  debit : Int
  credit : Int
deriving DecidableEq, Repr

/-- A stored `JournalEntry` together with its lines (`entry.lines.all()`). -/
structure Entry where
  pk : Nat
  date : Date
  status : Status
  lines : List ELine
deriving DecidableEq, Repr

/-- `JournalEntry.total_debit`: sum of the lines' debit amounts. -/
def totalDebit (lines : List ELine) : Int :=
  (lines.map (·.debit)).sum

/-- `JournalEntry.total_credit`: sum of the lines' credit amounts. -/
def totalCredit (lines : List ELine) : Int :=
  (lines.map (·.credit)).sum

/-- Validation errors raised while saving an entry or a line:
`PeriodClosedError` and `UnbalancedEntryError` from `JournalEntry.clean`,
and `LineAmountInvariantError` for a line rejected by the `JournalLine`
check constraints. -/
inductive SaveError where
  | periodClosed
  | unbalanced
  | lineInvariant
deriving DecidableEq, Repr

/-- The period lookup in `JournalEntry.clean`:
`FiscalPeriod.objects.filter(year=..., month=...).first()`, then
`per and per.is_closed`.  `find?` returns the first matching row. -/
def periodIsClosed (periods : List FiscalPeriod) (d : Date) : Bool :=
  match periods.find? (fun p => p.year = d.year && p.month = d.month) with
  | some p => p.is_closed
  | none => false

/-- `JournalEntry.clean`.  `pk` is `none` for a not-yet-saved entry;
`dbLines` are the lines currently stored for the entry (`self.lines.all()`),
which is empty when the entry has no primary key yet.  The `if self.date:`
guard of the source always holds here because `date` is a non-null field. -/
def JournalEntry.clean (periods : List FiscalPeriod) (pk : Option Nat)
    (d : Date) (status : Status) (dbLines : List ELine) :
    Except SaveError Unit :=
  if periodIsClosed periods d then
    .error .periodClosed
  else if pk.isNone then
    .ok ()
  else if status = .posted ∧ totalDebit dbLines ≠ totalCredit dbLines then
    .error .unbalanced
  else
    .ok ()

/-- The three database check constraints on `JournalLine`
(`chk_no_both_positive_debit_credit`, `chk_no_both_positive_credit_debit`,
`chk_must_have_amount`), enforced on every line write: `~Q(debit>0) | Q(credit=0)`,
`~Q(credit>0) | Q(debit=0)`, `Q(debit>0) | Q(credit>0)`. -/
def lineChecks (debit credit : Int) : Bool :=
  (!decide (debit > 0) || decide (credit = 0)) &&
  (!decide (credit > 0) || decide (debit = 0)) &&
  (decide (debit > 0) || decide (credit > 0))

/-- Creating a journal entry: the header is validated by `full_clean`
while it has no primary key and no stored lines, then saved; afterwards
each line is written, subject only to the `JournalLine` check
constraints.  The fresh primary key is one past the largest in use. -/
def createEntry (periods : List FiscalPeriod) (st : List Entry)
    (d : Date) (status : Status) (newLines : List ELine) :
    Except SaveError (List Entry) := do
  JournalEntry.clean periods none d status []
  if newLines.all (fun l => lineChecks l.debit l.credit) then
    .ok (st ++ [⟨(st.map (·.pk)).foldl max 0 + 1, d, status, newLines⟩])
  else
    .error .lineInvariant

/-- A journal line as seen from its account
(`account.journalline_set`), carrying the owning entry's date. -/
structure ALine where
  date : Date
  debit : Int
  credit : Int
deriving DecidableEq, Repr

/-- Django `Sum` aggregate over a queryset column: `None` when the
queryset is empty, otherwise the sum of the column. -/
def aggregateSum (xs : List Int) : Option Int :=
  match xs with
  | [] => none
  | _ => some xs.sum

/-- Python `x or Decimal("0.00")`: `None` and zero both fall back to the
default, which equals `Option.getD 0` in value. -/
def orZero (x : Option Int) : Int :=
  match x with
  | none => 0
  | some v => v

/-- `Account.get_balance(year, month)`: filter the account's lines by
entry year and/or month, aggregate debit and credit, coalesce with
zero, and apply the sign convention by account type. -/
def Account.get_balance (acc : Account) (ls : List ALine)
    (year month : Option Nat) : Int :=
  let qs := match year with
    | none => ls
    | some y => ls.filter (fun l => l.date.year = y)
  let qs := match month with
    | none => qs
    | some m => qs.filter (fun l => l.date.month = m)
  let total_debit := orZero (aggregateSum (qs.map (·.debit)))
  let total_credit := orZero (aggregateSum (qs.map (·.credit)))
  if acc.type = .asset ∨ acc.type = .expense then
    total_debit - total_credit
  else
    total_credit - total_debit

/-- Boolean lexicographic order on character lists. -/
def charsLe : List Char → List Char → Bool
  | [], _ => true
  | _ :: _, [] => false
  | a :: as, b :: bs =>
    if a < b then true
    else if b < a then false
    else charsLe as bs

/-- Boolean lexicographic order on strings, used where the source orders
query results by account code. -/
def strLe (a b : String) : Bool :=
  charsLe a.toList b.toList

/-- A `JournalLine` joined with its entry and account
(`JournalLine.objects.select_related("entry", "account")`). -/
structure JLine where
  date : Date
  account : Account
  debit : Int
  credit : Int
deriving DecidableEq, Repr

/-- The full `JournalLine` table derived from the entry table: each
entry contributes its lines, joined with the entry's date. -/
def allLines (entries : List Entry) : List JLine :=
  entries.flatMap (fun e =>
    e.lines.map (fun l => ⟨e.date, l.account, l.debit, l.credit⟩))

/-- One row of the trial balance (`mizan`). -/
structure MRow where
  code : String
  name : String
  debit : Int
  credit : Int
  balance : Int
deriving DecidableEq, Repr

/-- The result of the `mizan` view: rows, grand totals, and counts. -/
structure MizanResult where
  rows : List MRow
  total_debit : Int
  total_credit : Int
  total_balance : Int
  rows_count : Nat
  lines_count : Nat
deriving DecidableEq, Repr

/-- Grouping keys of `mizan`'s query:
`values("account__code", "account__name")`, ordered by account code. -/
def mizanKeys (ls : List JLine) : List (String × String) :=
  List.insertionSort (fun a b => strLe a.1 b.1 = true)
    ((ls.map (fun l => (l.account.code, l.account.name))).dedup)

/-- The grouped, annotated rows of `mizan`: per (code, name) group, the
debit and credit sums coalesced with 0 (`r["debit_sum"] or 0`). -/
def mizanRows (ls : List JLine) : List MRow :=
  (mizanKeys ls).map (fun k =>
    let g := ls.filter (fun l => l.account.code = k.1 && l.account.name = k.2)
    let d := orZero (aggregateSum (g.map (·.debit)))
    let c := orZero (aggregateSum (g.map (·.credit)))
    ⟨k.1, k.2, d, c, d - c⟩)

/-- The accumulation loop of `mizan` over its grouped rows. -/
def mizanCompute (ls : List JLine) : MizanResult :=
  let rows := mizanRows ls
  let td := (rows.map (·.debit)).sum
  let tc := (rows.map (·.credit)).sum
  ⟨rows, td, tc, td - tc, rows.length, ls.length⟩

/-- A date string as `mizan` sees it, abstracted by the result of
`date.fromisoformat`: `some d` when parsing yields `d`, `none` when it
raises `ValueError` (which `mizan` catches). -/
def DStr := Option Date

/-- The `try`/`except ValueError` filter block of `mizan`: the start
string is parsed first; on failure the exception aborts the whole block
and no filter is applied; otherwise the start filter is applied and the
end string is parsed, a failure there keeping the start filter already
applied. -/
def mizanFilterLines (sStr eStr : DStr) (ls : List JLine) : List JLine :=
  match sStr with
  | none => ls
  | some ds =>
    let l1 := ls.filter (fun l => Date.le ds l.date)
    match eStr with
    | none => l1
    | some de => l1.filter (fun l => Date.le l.date de)

/-- The `mizan` view.  A query parameter is `none` when absent (or the
falsy empty string), in which case the default string is used:
`first_day.isoformat()` for the start and `today.isoformat()` for the
end, each of which parses back to its date. -/
def mizan (today : Date) (startParam endParam : Option DStr)
    (entries : List Entry) : MizanResult :=
  let start_str : DStr := match startParam with
    | none => some today.firstDay
    | some s => s
  let end_str : DStr := match endParam with
    | none => some today
    | some s => s
  mizanCompute (mizanFilterLines start_str end_str (allLines entries))

/-- Descending (date, pk) order of `JournalEntry.objects.order_by("-date", "-id")`. -/
def entryBefore (a b : Entry) : Prop :=
  if a.date = b.date then b.pk ≤ a.pk else Date.le b.date a.date = true

instance : DecidableRel entryBefore := by
  intro a b
  unfold entryBefore
  infer_instance

/-- A caller-supplied date string as `JournalEntryListView` sees it,
abstracted by how Django's `parse_date` treats it: `valid d` parses to
the date `d`; `badFormat` does not match the YYYY-MM-DD shape, so
`parse_date` returns `None` (and `date.fromisoformat` would raise);
`badDate` matches the shape but names no calendar date, such as
"2026-02-30", so `parse_date` raises `ValueError`. -/
inductive DateStr where
  | valid (d : Date)
  | badFormat
  | badDate
deriving DecidableEq, Repr

/-- Django's `parse_date`: `None` for a badly-formatted string, the
parsed date for a valid one, and an uncaught `ValueError` — modelled
as `Except.error` — for a well-formed string that is not a calendar
date. -/
def parse_date (s : DateStr) : Except Unit (Option Date) :=
  match s with
  | .valid d => .ok (some d)
  | .badFormat => .ok none
  | .badDate => .error ()

/-- `JournalEntryListView.get_queryset`: order all entries descending
by (date, id), parse the start bound and then the end bound with
`parse_date` — a falsy (absent or empty) parameter is not parsed at
all — and apply each successfully parsed bound as a filter.  The view
has no exception handler, so a `ValueError` from `parse_date`
propagates out of `get_queryset` (the `.error` case) and the request
crashes. -/
def JournalEntryListView.get_queryset (sParam eParam : Option DateStr)
    (entries : List Entry) : Except Unit (List Entry) := do
  let qs := List.insertionSort entryBefore entries
  let start : Option Date ← match sParam with
    | none => pure none
    | some s => parse_date s
  let endd : Option Date ← match eParam with
    | none => pure none
    | some s => parse_date s
  let qs := match start with
    | none => qs
    | some ds => qs.filter (fun e => Date.le ds e.date)
  return match endd with
    | none => qs
    | some de => qs.filter (fun e => Date.le e.date de)

/-- The helper `_account_balance_until` of `balance_sheet.py`: the
signed balance of `acc` over all of its lines dated on or before
December 31 of `year`, with the same sign convention as
`Account.get_balance`. -/
def accountBalanceUntil (acc : Account) (ls : List JLine) (year : Nat) : Int :=
  let cutoff : Date := ⟨year, 12, 31⟩
  let qs := (ls.filter (fun l => l.account.code = acc.code)).filter
    (fun l => Date.le l.date cutoff)
  let total_debit := orZero (aggregateSum (qs.map (·.debit)))
  let total_credit := orZero (aggregateSum (qs.map (·.credit)))
  if acc.type = .asset ∨ acc.type = .expense then
    total_debit - total_credit
  else
    total_credit - total_debit

/-- One line item of the balance sheet. -/
structure BSRow where
  code : String
  name : String
  balance : Int
deriving DecidableEq, Repr

/-- The dictionary returned by `generate_balance`; the source's `match`
key is spelled `bmatch` because `match` is reserved. -/
structure BalanceResult where
  assets : List BSRow
  liabilities : List BSRow
  equities : List BSRow
  total_assets : Int
  total_liabilities_equity : Int
  bmatch : Bool
  net_result : Int
deriving DecidableEq, Repr

/-- The account loop of `generate_balance`: classify each nonzero
balance into the three sections, accumulating INCOME and EXPENSE
balances into the two running totals instead of emitting rows. -/
def bsLoop (ls : List JLine) (year : Nat) :
    List Account → List BSRow × List BSRow × List BSRow × Int × Int
  | [] => ([], [], [], 0, 0)
  | acc :: rest =>
    let (as, li, eq, inc, exp) := bsLoop ls year rest
    let bal := accountBalanceUntil acc ls year
    if bal = 0 then (as, li, eq, inc, exp)
    else
      match acc.type with
      | .asset => (⟨acc.code, acc.name, bal⟩ :: as, li, eq, inc, exp)
      | .liability => (as, ⟨acc.code, acc.name, bal⟩ :: li, eq, inc, exp)
      | .equity => (as, li, ⟨acc.code, acc.name, bal⟩ :: eq, inc, exp)
      | .income => (as, li, eq, bal + inc, exp)
      | .expense => (as, li, eq, inc, bal + exp)

/-- `generate_balance(year)`: iterate the accounts ordered by code,
classify balances, append the synthetic "Dönem Net Kâr/Zararı" equity
row when the net result is nonzero, and compute totals and the `match`
flag. -/
def generate_balance (accounts : List Account) (ls : List JLine)
    (year : Nat) : BalanceResult :=
  let ordered := List.insertionSort (fun a b : Account => strLe a.code b.code = true) accounts
  let (assets, liabilities, equities0, income_total, expense_total) :=
    bsLoop ls year ordered
  let net_result := income_total - expense_total
  let equities :=
    if net_result ≠ 0 then
      equities0 ++ [⟨"DNET", "Dönem Net Kâr/Zararı", net_result⟩]
    else equities0
  let total_assets := if assets.isEmpty then 0 else (assets.map (·.balance)).sum
  let total_liabilities := if liabilities.isEmpty then 0 else (liabilities.map (·.balance)).sum
  let total_equity := if equities.isEmpty then 0 else (equities.map (·.balance)).sum
  ⟨assets, liabilities, equities,
    total_assets, total_liabilities + total_equity,
    decide (total_assets = total_liabilities + total_equity), net_result⟩

/-- One line item of the income statement. -/
structure ISRow where
  code : String
  name : String
  amount : Int
deriving DecidableEq, Repr

/-- The dictionary returned by `generate_income_statement`. -/
structure IncomeResult where
  year : Nat
  incomes : List ISRow
  expenses : List ISRow
  total_income : Int
  total_expense : Int
  net_result : Int
  is_profit : Bool
deriving DecidableEq, Repr

/-- Grouping keys of the income-statement query:
`values("account__code", "account__name", "account__type")`, ordered by
account code. -/
def isKeys (ls : List JLine) : List (String × String × AccountType) :=
  List.insertionSort (fun a b => strLe a.1 b.1 = true)
    ((ls.map (fun l => (l.account.code, l.account.name, l.account.type))).dedup)

/-- Character-list prefix test. -/
def listPrefix : List Char → List Char → Bool
  | [], _ => true
  | _ :: _, [] => false
  | a :: as, b :: bs => a = b && listPrefix as bs

/-- Python truthiness of `code and code.startswith(p)`: an empty code is
falsy, otherwise test the prefix. -/
def codeStarts (code p : String) : Bool :=
  code ≠ "" && listPrefix p.toList code.toList

/-- The lines of one grouped row of the income-statement query. -/
def isGroup (ls : List JLine) (k : String × String × AccountType) : List JLine :=
  ls.filter (fun l =>
    l.account.code = k.1 && l.account.name = k.2.1 && l.account.type = k.2.2)

/-- The annotated `debit_sum` of one grouped row, coalesced with 0. -/
def groupDebit (ls : List JLine) (k : String × String × AccountType) : Int :=
  orZero (aggregateSum ((isGroup ls k).map (·.debit)))

/-- The annotated `credit_sum` of one grouped row, coalesced with 0. -/
def groupCredit (ls : List JLine) (k : String × String × AccountType) : Int :=
  orZero (aggregateSum ((isGroup ls k).map (·.credit)))

/-- The classification-and-accumulation loop of
`generate_income_statement` over its grouped rows: `is_income` is
tested first, so an account satisfying both tests lands in the incomes. -/
def isLoop (ls : List JLine) :
    List (String × String × AccountType) → List ISRow × List ISRow × Int × Int
  | [] => ([], [], 0, 0)
  | k :: ks =>
    let (incomes, expenses, ti, te) := isLoop ls ks
    let d := groupDebit ls k
    let c := groupCredit ls k
    let is_income := codeStarts k.1 "6" || k.2.2 = .income
    let is_expense := codeStarts k.1 "7" || k.2.2 = .expense
    if !is_income && !is_expense then (incomes, expenses, ti, te)
    else if is_income then
      let amount := c - d
      if amount = 0 then (incomes, expenses, ti, te)
      else (⟨k.1, k.2.1, amount⟩ :: incomes, expenses, amount + ti, te)
    else
      let amount := d - c
      if amount = 0 then (incomes, expenses, ti, te)
      else (incomes, ⟨k.1, k.2.1, amount⟩ :: expenses, ti, amount + te)

/-- `generate_income_statement(year)`: restrict the lines to the
calendar year, group them by account, classify and accumulate, then
report totals, the net result, and the profit flag. -/
def generate_income_statement (ls : List JLine) (year : Nat) : IncomeResult :=
  let start : Date := ⟨year, 1, 1⟩
  let stop : Date := ⟨year, 12, 31⟩
  let inRange := ls.filter (fun l => Date.le start l.date && Date.le l.date stop)
  let (incomes, expenses, total_income, total_expense) :=
    isLoop inRange (isKeys inRange)
  let net_result := total_income - total_expense
  ⟨year, incomes, expenses, total_income, total_expense, net_result,
    decide (net_result ≥ 0)⟩

/-- A `JournalLine` as the `0004_fill_line_no` migration sees it:
its own id, its entry id, and its `line_no`. -/
structure MigLine where
  id : Nat
  entryId : Nat
  line_no : Nat
deriving DecidableEq, Repr

/-- The iteration order of the backfill:
`JournalLine.objects.order_by("entry_id", "id")`. -/
def migOrder (a b : MigLine) : Prop :=
  a.entryId < b.entryId ∨ (a.entryId = b.entryId ∧ a.id ≤ b.id)

instance : DecidableRel migOrder := by
  intro a b
  unfold migOrder
  infer_instance

instance : IsTotal MigLine migOrder := by
  refine ⟨fun a b => ?_⟩
  unfold migOrder
  omega

instance : IsTrans MigLine migOrder := by
  refine ⟨fun a b c hab hbc => ?_⟩
  unfold migOrder at *
  omega

/-- The numbering pass of the backfill: `current_entry` starts as
`None`, the counter resets to 1 whenever the entry id changes and
increments otherwise, and each line's `line_no` is overwritten with the
counter. -/
def numberLines : Option Nat → Nat → List MigLine → List MigLine
  | _, _, [] => []
  | cur, counter, l :: ls =>
    let c := if cur = some l.entryId then counter + 1 else 1
    { l with line_no := c } :: numberLines (some l.entryId) c ls

/-- The `forwards` function of migration `0004_fill_line_no`: walk the
lines ordered by `(entry_id, id)` and assign 1-based per-entry numbers. -/
def forwards (ls : List MigLine) : List MigLine :=
  numberLines none 0 (List.insertionSort migOrder ls)

/-- Classification outcome of an account in the income statement. -/
inductive Cls where
  | income
  | expense
  | excluded
deriving DecidableEq, Repr

/-- Classification as the claim states it: the code prefix takes
precedence over the type whenever the two rules disagree. -/
def classifyClaim (code : String) (t : AccountType) : Cls :=
  if codeStarts code "6" then .income
  else if codeStarts code "7" then .expense
  else if t = .income then .income
  else if t = .expense then .expense
  else .excluded

/-- Classification as the source implements it: the income test
(`code.startswith("6") or type == INCOME`) is evaluated first, so it
wins over the expense test whenever both hold. -/
def classifyAmended (code : String) (t : AccountType) : Cls :=
  if codeStarts code "6" || t = .income then .income
  else if codeStarts code "7" || t = .expense then .expense
  else .excluded

/-- Declarative income statement built from a classification function,
following the claim's wording: income rows carry Σcredit − Σdebit,
expense rows Σdebit − Σcredit, zero-amount accounts are omitted from
the line items but counted as zero in the totals, and
`net_result = total_income − total_expense`, `is_profit = (net_result ≥ 0)`. -/
def specIncomeStatement (classify : String → AccountType → Cls)
    (ls : List JLine) (year : Nat) : IncomeResult :=
  let start : Date := ⟨year, 1, 1⟩
  let stop : Date := ⟨year, 12, 31⟩
  let inRange := ls.filter (fun l => Date.le start l.date && Date.le l.date stop)
  let keys := isKeys inRange
  let incomes := keys.filterMap (fun k =>
    let amount := groupCredit inRange k - groupDebit inRange k
    if classify k.1 k.2.2 = .income ∧ amount ≠ 0 then
      some ⟨k.1, k.2.1, amount⟩
    else none)
  let expenses := keys.filterMap (fun k =>
    let amount := groupDebit inRange k - groupCredit inRange k
    if classify k.1 k.2.2 = .expense ∧ amount ≠ 0 then
      some ⟨k.1, k.2.1, amount⟩
    else none)
  let total_income := (keys.map (fun k =>
    if classify k.1 k.2.2 = .income then
      groupCredit inRange k - groupDebit inRange k
    else 0)).sum
  let total_expense := (keys.map (fun k =>
    if classify k.1 k.2.2 = .expense then
      groupDebit inRange k - groupCredit inRange k
    else 0)).sum
  let net_result := total_income - total_expense
  ⟨year, incomes, expenses, total_income, total_expense, net_result,
    decide (net_result ≥ 0)⟩

/-- Filtering as the claim for the trial balance states it: each bound
is handled independently, an unparsable bound becoming "no bound" on
its own side only. -/
def claimFilterLines (sStr eStr : DStr) (ls : List JLine) : List JLine :=
  let l1 := match sStr with
    | none => ls
    | some ds => ls.filter (fun l => Date.le ds l.date)
  match eStr with
  | none => l1
  | some de => l1.filter (fun l => Date.le l.date de)

/-- The window filter of `Account.get_balance`: the account's lines
restricted by entry year and/or month. -/
def windowLines (ls : List ALine) (year month : Option Nat) : List ALine :=
  let qs := match year with
    | none => ls
    | some y => ls.filter (fun l => l.date.year = y)
  match month with
  | none => qs
  | some m => qs.filter (fun l => l.date.month = m)

/-- At most one `FiscalPeriod` row per (year, month): the
`unique_together = ("year", "month")` database constraint. -/
def periodsUnique (periods : List FiscalPeriod) : Prop :=
  periods.Pairwise (fun p q => ¬(p.year = q.year ∧ p.month = q.month))

/-- The five accounts of the reconciliation scenario. -/
def sampleAccounts : List Account :=
  [⟨"100", "Cash", .asset⟩, ⟨"300", "Payable", .liability⟩,
   ⟨"500", "Capital", .equity⟩, ⟨"600", "Sales", .income⟩,
   ⟨"700", "Rent", .expense⟩]

/-- The three entries of the reconciliation scenario: a 1000 capital
injection, a 200 sale, and a 50 rent payment. -/
def sampleEntries : List Entry :=
  [⟨1, ⟨2026, 3, 1⟩, .posted,
     [⟨⟨"100", "Cash", .asset⟩, 1, 1000, 0⟩,
      ⟨⟨"500", "Capital", .equity⟩, 2, 0, 1000⟩]⟩,
   ⟨2, ⟨2026, 6, 1⟩, .posted,
     [⟨⟨"100", "Cash", .asset⟩, 1, 200, 0⟩,
      ⟨⟨"600", "Sales", .income⟩, 2, 0, 200⟩]⟩,
   ⟨3, ⟨2026, 6, 2⟩, .posted,
     [⟨⟨"700", "Rent", .expense⟩, 1, 50, 0⟩,
      ⟨⟨"100", "Cash", .asset⟩, 2, 0, 50⟩]⟩]

/-- First `line_no` that the numbering pass will hand to the lines of
entry `e`: the incoming counter continues only when the list starts
with a line of `e` and the pass arrives already inside entry `e`. -/
def startIndex (e : Nat) (cur : Option Nat) (k : Nat) : List MigLine → Nat
  | [] => 1
  | a :: _ => if a.entryId = e ∧ cur = some e then k + 1 else 1

/-- `orZero ∘ aggregateSum` is the plain sum. -/
theorem orZero_aggregateSum (xs : List Int) :
    orZero (aggregateSum xs) = xs.sum := by
  cases xs <;> simp [orZero, aggregateSum]

/-- With a unique period table, the period lookup of
`JournalEntry.clean` answers true exactly when a closed row matching
the date exists. -/
theorem periodIsClosed_iff (periods : List FiscalPeriod) (d : Date)
    (huniq : periodsUnique periods) :
    periodIsClosed periods d = true ↔
      ∃ p ∈ periods, p.year = d.year ∧ p.month = d.month ∧ p.is_closed = true := by
  induction periods with
  | nil => simp [periodIsClosed]
  | cons q qs ih =>
    rcases List.pairwise_cons.mp huniq with ⟨hq, hqs⟩
    by_cases hmatch : q.year = d.year ∧ q.month = d.month
    · have hfind : periodIsClosed (q :: qs) d = q.is_closed := by
        simp [periodIsClosed, List.find?, hmatch.1, hmatch.2]
      rw [hfind]
      constructor
      · intro hc
        exact ⟨q, List.mem_cons_self q qs, hmatch.1, hmatch.2, hc⟩
      · rintro ⟨p, hp, hy, hm, hc⟩
        rcases List.mem_cons.mp hp with rfl | hp'
        · exact hc
        · exact absurd ⟨hmatch.1.trans hy.symm, hmatch.2.trans hm.symm⟩ (hq p hp')
    · have hfind : periodIsClosed (q :: qs) d = periodIsClosed qs d := by
        have : (q.year = d.year && q.month = d.month) = false := by
          rcases Decidable.not_and_iff_or_not.mp hmatch with h | h <;> simp [h]
        simp [periodIsClosed, List.find?, this]
      rw [hfind, ih hqs]
      constructor
      · rintro ⟨p, hp, rest⟩
        exact ⟨p, List.mem_cons_of_mem q hp, rest⟩
      · rintro ⟨p, hp, hy, hm, hc⟩
        rcases List.mem_cons.mp hp with rfl | hp'
        · exact absurd ⟨hy, hm⟩ hmatch
        · exact ⟨p, hp', hy, hm, hc⟩

/-- C2: on every create or update (any status, any pk), a closed
`FiscalPeriod` matching the entry's date makes validation fail with
`PeriodClosedError`; when no matching row is closed, the period check
passes (the result is never `PeriodClosedError`). -/
theorem clean_period_check (periods : List FiscalPeriod) (pk : Option Nat)
    (d : Date) (status : Status) (dbLines : List ELine)
    (huniq : periodsUnique periods) :
    ((∃ p ∈ periods, p.year = d.year ∧ p.month = d.month ∧ p.is_closed = true) →
      JournalEntry.clean periods pk d status dbLines = .error .periodClosed)
    ∧ ((¬∃ p ∈ periods, p.year = d.year ∧ p.month = d.month ∧ p.is_closed = true) →
      JournalEntry.clean periods pk d status dbLines ≠ .error .periodClosed) := by
  constructor
  · intro hex
    have hc : periodIsClosed periods d = true :=
      (periodIsClosed_iff periods d huniq).mpr hex
    simp [JournalEntry.clean, hc]
  · intro hnex
    have hc : periodIsClosed periods d = false := by
      rcases Bool.eq_false_or_eq_true (periodIsClosed periods d) with h | h
      · exact absurd ((periodIsClosed_iff periods d huniq).mp h) hnex
      · exact h
    unfold JournalEntry.clean
    rw [hc]
    split
    · simp at *
    · split
      · simp
      · split <;> simp

/-- Witness for `clean_period_check` at a concrete closed period and
entry date (`FiscalPeriod(2026, 1, closed=true)`, entry dated
2026-01-15). -/
theorem clean_period_check_witness :
    JournalEntry.clean [⟨2026, 1, true⟩] none ⟨2026, 1, 15⟩ .draft []
      = .error .periodClosed :=
  (clean_period_check [⟨2026, 1, true⟩] none ⟨2026, 1, 15⟩ .draft []
    (by simp [periodsUnique])).1 ⟨⟨2026, 1, true⟩, by simp, rfl, rfl, rfl⟩

/-- C1 counterexample: creating a brand-new entry directly as POSTED
with a single 100-debit line succeeds — `clean` returns before the
balance check because the entry has no primary key, and the line passes
the line-level constraints — leaving a reachable ledger state whose
only entry is POSTED and unbalanced. -/
theorem create_posted_unbalanced_succeeds :
    createEntry [] [] ⟨2026, 3, 1⟩ .posted [⟨⟨"100", "Kasa", .asset⟩, 1, 100, 0⟩]
      = .ok [⟨1, ⟨2026, 3, 1⟩, .posted, [⟨⟨"100", "Kasa", .asset⟩, 1, 100, 0⟩]⟩]
    ∧ totalDebit [⟨⟨"100", "Kasa", .asset⟩, 1, 100, 0⟩]
        ≠ totalCredit [⟨⟨"100", "Kasa", .asset⟩, 1, 100, 0⟩] :=
  ⟨rfl, by decide⟩

/-- C1 amended: the balance check applies exactly to entries that
already have a primary key: every update that would save an existing
entry as POSTED while its lines' total debit differs from their total
credit fails with `UnbalancedEntryError` (the period check, which runs
first, passing). -/
theorem clean_posted_unbalanced_update_fails (periods : List FiscalPeriod)
    (n : Nat) (d : Date) (dbLines : List ELine)
    (hopen : periodIsClosed periods d = false)
    (hunbal : totalDebit dbLines ≠ totalCredit dbLines) :
    JournalEntry.clean periods (some n) d .posted dbLines
      = .error .unbalanced := by
  unfold JournalEntry.clean
  rw [hopen]
  simp [hunbal]

/-- Witness for `clean_posted_unbalanced_update_fails` at a concrete
existing entry. -/
theorem clean_posted_unbalanced_update_fails_witness :
    JournalEntry.clean [] (some 1) ⟨2026, 3, 1⟩ .posted
      [⟨⟨"100", "Kasa", .asset⟩, 1, 100, 0⟩] = .error .unbalanced :=
  clean_posted_unbalanced_update_fails [] 1 ⟨2026, 3, 1⟩
    [⟨⟨"100", "Kasa", .asset⟩, 1, 100, 0⟩] (by decide) (by decide)

/-- C4: a line passes the storage-layer check constraints exactly when
debit and credit are both non-negative, not both strictly positive, and
at least one is strictly positive — equivalently, exactly one of the
two is strictly positive and the other is zero. -/
theorem lineChecks_iff (d c : Int) :
    lineChecks d c = true ↔
      ((0 ≤ d ∧ 0 ≤ c ∧ ¬(0 < d ∧ 0 < c) ∧ (0 < d ∨ 0 < c))
        ∧ ((0 < d ∧ c = 0) ∨ (0 < c ∧ d = 0))) := by
  simp only [lineChecks, Bool.and_eq_true, Bool.or_eq_true, Bool.not_eq_true',
    decide_eq_true_iff, decide_eq_false_iff_not]
  omega

/-- C3: `get_balance` returns Σdebit − Σcredit over the lines in the
requested window for debit-normal account types (ASSET, EXPENSE) and
Σcredit − Σdebit for the rest (LIABILITY, EQUITY, INCOME); an empty
window yields 0 rather than an error. -/
theorem get_balance_spec (acc : Account) (ls : List ALine)
    (year month : Option Nat) :
    (acc.get_balance ls year month =
      if acc.type = .asset ∨ acc.type = .expense then
        ((windowLines ls year month).map (·.debit)).sum
          - ((windowLines ls year month).map (·.credit)).sum
      else
        ((windowLines ls year month).map (·.credit)).sum
          - ((windowLines ls year month).map (·.debit)).sum)
    ∧ (windowLines ls year month = [] → acc.get_balance ls year month = 0) := by
  have heq : ∀ y m, Account.get_balance acc ls y m =
      if acc.type = .asset ∨ acc.type = .expense then
        ((windowLines ls y m).map (·.debit)).sum
          - ((windowLines ls y m).map (·.credit)).sum
      else
        ((windowLines ls y m).map (·.credit)).sum
          - ((windowLines ls y m).map (·.debit)).sum := by
    intro y m
    simp only [Account.get_balance, windowLines, orZero_aggregateSum]
  refine ⟨heq year month, fun hempty => ?_⟩
  rw [heq year month, hempty]
  split <;> simp

/-- Witness for `get_balance_spec`: with no lines at all the balance of
a concrete account is 0. -/
theorem get_balance_spec_witness :
    Account.get_balance ⟨"100", "Kasa", .asset⟩ [] none none = 0 :=
  (get_balance_spec ⟨"100", "Kasa", .asset⟩ [] none none).2 rfl

/-- C6: on the five-account, three-entry scenario the balance sheet for
2026 lists assets [100: 1150], no liabilities, equities [500: 1000,
DNET: 150], totals 1150 on both sides, match true, net result 150. -/
theorem balance_sheet_scenario :
    generate_balance sampleAccounts (allLines sampleEntries) 2026 =
      ⟨[⟨"100", "Cash", 1150⟩], [],
       [⟨"500", "Capital", 1000⟩, ⟨"DNET", "Dönem Net Kâr/Zararı", 150⟩],
       1150, 1150, true, 150⟩ := by
  decide

/-- C9 counterexample: with an unparsable start string and the
well-formed end bound 2026-06-30, the trial balance still counts a line
dated 2026-07-15 (total debit 100), while filtering each bound
independently — as the claim states — would exclude it (total debit 0);
and a journal-list request whose start bound is well-formed but not a
calendar date, such as "2026-02-30", raises an uncaught `ValueError`
instead of being treated as "no bound". -/
theorem mizan_malformed_start_keeps_late_line :
    (mizan ⟨2026, 7, 20⟩ (some none) (some (some ⟨2026, 6, 30⟩))
      [⟨1, ⟨2026, 7, 15⟩, .posted, [⟨⟨"100", "Cash", .asset⟩, 1, 100, 0⟩]⟩]).total_debit
      = 100
    ∧ (mizanCompute (claimFilterLines none (some ⟨2026, 6, 30⟩)
        (allLines [⟨1, ⟨2026, 7, 15⟩, .posted,
          [⟨⟨"100", "Cash", .asset⟩, 1, 100, 0⟩]⟩]))).total_debit = 0
    ∧ JournalEntryListView.get_queryset (some DateStr.badDate) none []
        = .error () :=
  ⟨by decide, by decide, rfl⟩

/-- C9 amended: the trial balance never crashes on malformed bounds —
its shared try/except catches the `ValueError` — and it treats an
unparsable end bound as no bound while keeping the start bound, but an
unparsable start bound aborts the filter block, so a well-formed end
bound is then ignored as well.  The journal list parses each bound
independently with `parse_date`: a badly-formatted bound is treated as
no bound on that side while a well-formed other bound is still
applied, but a well-formed-but-invalid bound (such as "2026-02-30") on
either side raises an uncaught `ValueError` and crashes the request. -/
theorem malformed_date_filter_behaviour :
    (∀ (eStr : DStr) (ls : List JLine), mizanFilterLines none eStr ls = ls)
    ∧ (∀ (ds : Date) (ls : List JLine),
        mizanFilterLines (some ds) none ls
          = ls.filter (fun l => Date.le ds l.date))
    ∧ (∀ (eParam : Option DateStr) (entries : List Entry),
        JournalEntryListView.get_queryset (some .badFormat) eParam entries
          = JournalEntryListView.get_queryset none eParam entries)
    ∧ (∀ (sParam : Option DateStr) (entries : List Entry),
        JournalEntryListView.get_queryset sParam (some .badFormat) entries
          = JournalEntryListView.get_queryset sParam none entries)
    ∧ (∀ (de : Date) (entries : List Entry),
        JournalEntryListView.get_queryset (some .badFormat) (some (.valid de)) entries
          = .ok ((List.insertionSort entryBefore entries).filter
              (fun e => Date.le e.date de)))
    ∧ (∀ (eParam : Option DateStr) (entries : List Entry),
        JournalEntryListView.get_queryset (some .badDate) eParam entries
          = .error ())
    ∧ (∀ (sParam : Option DateStr) (entries : List Entry),
        JournalEntryListView.get_queryset sParam (some .badDate) entries
          = .error ()) :=
  ⟨fun _ _ => rfl, fun _ _ => rfl, fun _ _ => rfl,
   fun sParam _ => by
     cases sParam with
     | none => rfl
     | some s => cases s <;> rfl,
   fun _ _ => rfl, fun _ _ => rfl,
   fun sParam _ => by
     cases sParam with
     | none => rfl
     | some s => cases s <;> rfl⟩

/-- Unfolding of `allLines` over a cons cell. -/
theorem allLines_cons (e : Entry) (entries : List Entry) :
    allLines (e :: entries) =
      e.lines.map (fun l => ⟨e.date, l.account, l.debit, l.credit⟩)
        ++ allLines entries := by
  simp [allLines]

/-- C10: with neither a start nor an end parameter, the trial balance
is computed over the window [first day of today's month, today] only —
and an entry dated outside that window contributes nothing to it. -/
theorem mizan_default_window (today : Date) (entries : List Entry) :
    (mizan today none none entries =
      mizanCompute ((allLines entries).filter
        (fun l => Date.le today.firstDay l.date && Date.le l.date today)))
    ∧ (∀ e : Entry,
        (Date.le today.firstDay e.date && Date.le e.date today) = false →
        mizan today none none (e :: entries) = mizan today none none entries) := by
  have h1 : ∀ es : List Entry, mizan today none none es =
      mizanCompute ((allLines es).filter
        (fun l => Date.le today.firstDay l.date && Date.le l.date today)) := by
    intro es
    show mizanCompute
        (((allLines es).filter (fun l => Date.le today.firstDay l.date)).filter
          (fun l => Date.le l.date today)) = _
    rw [List.filter_filter]
    congr 2
    funext l
    exact Bool.and_comm _ _
  refine ⟨h1 entries, fun e he => ?_⟩
  rw [h1, h1]
  congr 1
  rw [allLines_cons, List.filter_append]
  have hnil : (e.lines.map (fun l =>
      (⟨e.date, l.account, l.debit, l.credit⟩ : JLine))).filter
      (fun l => Date.le today.firstDay l.date && Date.le l.date today) = [] := by
    rw [List.filter_eq_nil_iff]
    intro l hl
    rcases List.mem_map.mp hl with ⟨el, _, rfl⟩
    simp only
    rw [he]
    exact Bool.false_ne_true
  rw [hnil, List.nil_append]

/-- Witness for `mizan_default_window`: an entry dated 2026-08-05 is
invisible to the default-window trial balance of 2026-07-20. -/
theorem mizan_default_window_witness :
    mizan ⟨2026, 7, 20⟩ none none
        [⟨1, ⟨2026, 8, 5⟩, .posted, [⟨⟨"100", "Cash", .asset⟩, 1, 100, 0⟩]⟩]
      = mizan ⟨2026, 7, 20⟩ none none [] :=
  (mizan_default_window ⟨2026, 7, 20⟩ []).2
    ⟨1, ⟨2026, 8, 5⟩, .posted, [⟨⟨"100", "Cash", .asset⟩, 1, 100, 0⟩]⟩
    (by decide)

/-- Splitting a mapped sum along a Boolean filter. -/
theorem sum_map_filter_add {α : Type} (p : α → Bool) (f : α → Int)
    (ls : List α) :
    ((ls.filter p).map f).sum + ((ls.filter (fun a => !p a)).map f).sum
      = (ls.map f).sum := by
  induction ls with
  | nil => simp
  | cons a t ih =>
    cases hpa : p a <;> simp [List.filter_cons, hpa] <;> omega

/-- Summing group sums over a duplicate-free list of keys that covers
every element's key recovers the total sum. -/
theorem sum_over_groups {α κ : Type} [DecidableEq κ] (key : α → κ)
    (f : α → Int) :
    ∀ (keys : List κ) (ls : List α), keys.Nodup →
      (∀ l ∈ ls, key l ∈ keys) →
      (keys.map (fun k => ((ls.filter (fun a => key a = k)).map f).sum)).sum
        = (ls.map f).sum := by
  intro keys
  induction keys with
  | nil =>
    intro ls _ hcov
    cases ls with
    | nil => simp
    | cons a t => exact absurd (hcov a (List.mem_cons_self a t)) (List.not_mem_nil _)
  | cons k ks ih =>
    intro ls hnd hcov
    rcases List.nodup_cons.mp hnd with ⟨hk, hks⟩
    have hrest : (ks.map (fun k' =>
        ((ls.filter (fun a => key a = k')).map f).sum)).sum
        = ((ls.filter (fun a => !decide (key a = k))).map f).sum := by
      have hmapeq : ks.map (fun k' =>
          ((ls.filter (fun a => key a = k')).map f).sum)
          = ks.map (fun k' =>
            (((ls.filter (fun a => !decide (key a = k))).filter
              (fun a => key a = k')).map f).sum) := by
        apply List.map_congr_left
        intro k' hk'
        have hne : k' ≠ k := fun h => hk (h ▸ hk')
        have hfeq : ls.filter (fun a => decide (key a = k'))
            = (ls.filter (fun a => !decide (key a = k))).filter
              (fun a => decide (key a = k')) := by
          rw [List.filter_filter]
          apply List.filter_congr
          intro a _
          by_cases hak : key a = k'
          · simp [hak, hne]
          · simp [hak]
        rw [hfeq]
      rw [hmapeq]
      apply ih
      · exact hks
      · intro l hl
        rcases List.mem_filter.mp hl with ⟨hmem, hnk⟩
        rcases List.mem_cons.mp (hcov l hmem) with h | h
        · simp [h] at hnk
        · exact h
    simp only [List.map_cons, List.sum_cons, hrest]
    exact sum_map_filter_add (fun a => decide (key a = k)) f ls

/-- The grand totals of the trial balance are the plain debit and
credit sums of the lines it was computed from. -/
theorem mizanCompute_totals (ls : List JLine) :
    (mizanCompute ls).total_debit = (ls.map (·.debit)).sum
    ∧ (mizanCompute ls).total_credit = (ls.map (·.credit)).sum := by
  have hnd : (mizanKeys ls).Nodup := by
    have hperm := List.perm_insertionSort
      (fun a b : String × String => strLe a.1 b.1 = true)
      ((ls.map (fun l => (l.account.code, l.account.name))).dedup)
    exact (List.Perm.nodup_iff hperm).mpr (List.nodup_dedup _)
  have hcov : ∀ l ∈ ls, (l.account.code, l.account.name) ∈ mizanKeys ls := by
    intro l hl
    unfold mizanKeys
    rw [List.mem_insertionSort, List.mem_dedup]
    exact List.mem_map_of_mem _ hl
  have hfix : ∀ (f : JLine → Int) (k : String × String) ,
      ls.filter (fun l => l.account.code = k.1 && l.account.name = k.2)
        = ls.filter (fun l => (l.account.code, l.account.name) = k) := by
    intro f k
    apply List.filter_congr
    intro a _
    rcases k with ⟨kc, kn⟩
    by_cases hc : a.account.code = kc <;> by_cases hn : a.account.name = kn <;>
      simp [hc, hn, Prod.ext_iff]
  constructor
  · show ((mizanRows ls).map (·.debit)).sum = _
    unfold mizanRows
    rw [List.map_map]
    have : ((mizanKeys ls).map (fun k =>
        ((ls.filter (fun l =>
          (l.account.code, l.account.name) = k)).map (·.debit)).sum)).sum
        = (ls.map (·.debit)).sum :=
      sum_over_groups (fun l => (l.account.code, l.account.name)) (·.debit)
        (mizanKeys ls) ls hnd hcov
    rw [← this]
    congr 1
    apply List.map_congr_left
    intro k _
    simp only [Function.comp]
    rw [orZero_aggregateSum, hfix (·.debit) k]
  · show ((mizanRows ls).map (·.credit)).sum = _
    unfold mizanRows
    rw [List.map_map]
    have : ((mizanKeys ls).map (fun k =>
        ((ls.filter (fun l =>
          (l.account.code, l.account.name) = k)).map (·.credit)).sum)).sum
        = (ls.map (·.credit)).sum :=
      sum_over_groups (fun l => (l.account.code, l.account.name)) (·.credit)
        (mizanKeys ls) ls hnd hcov
    rw [← this]
    congr 1
    apply List.map_congr_left
    intro k _
    simp only [Function.comp]
    rw [orZero_aggregateSum, hfix (·.credit) k]

/-- Over entries each of which is balanced, any date-window restriction
of the flattened line table has equal debit and credit sums, because
the filter keeps or drops each entry's lines as a whole. -/
theorem filtered_sums_balanced (entries : List Entry) (p : Date → Bool)
    (hbal : ∀ e ∈ entries, totalDebit e.lines = totalCredit e.lines) :
    (((allLines entries).filter (fun l => p l.date)).map (·.debit)).sum
      = (((allLines entries).filter (fun l => p l.date)).map (·.credit)).sum := by
  induction entries with
  | nil => rfl
  | cons e t ih =>
    have hbt : ∀ x ∈ t, totalDebit x.lines = totalCredit x.lines :=
      fun x hx => hbal x (List.mem_cons_of_mem e hx)
    have hbe : totalDebit e.lines = totalCredit e.lines :=
      hbal e (List.mem_cons_self e t)
    rw [allLines_cons, List.filter_append, List.map_append, List.map_append,
      List.sum_append, List.sum_append]
    cases hp : p e.date
    · have hnil : (e.lines.map (fun l =>
          (⟨e.date, l.account, l.debit, l.credit⟩ : JLine))).filter
          (fun l => p l.date) = [] := by
        rw [List.filter_eq_nil_iff]
        intro l hl
        rcases List.mem_map.mp hl with ⟨el, _, rfl⟩
        simp [hp]
      rw [hnil]
      simpa using ih hbt
    · have hall : (e.lines.map (fun l =>
          (⟨e.date, l.account, l.debit, l.credit⟩ : JLine))).filter
          (fun l => p l.date)
          = e.lines.map (fun l => (⟨e.date, l.account, l.debit, l.credit⟩ : JLine)) := by
        rw [List.filter_eq_self]
        intro l hl
        rcases List.mem_map.mp hl with ⟨el, _, rfl⟩
        simp [hp]
      rw [hall, List.map_map, List.map_map]
      have hd : (e.lines.map ((·.debit) ∘ (fun l =>
          (⟨e.date, l.account, l.debit, l.credit⟩ : JLine)))).sum
          = totalDebit e.lines := rfl
      have hc : (e.lines.map ((·.credit) ∘ (fun l =>
          (⟨e.date, l.account, l.debit, l.credit⟩ : JLine)))).sum
          = totalCredit e.lines := rfl
      rw [hd, hc, hbe, ih hbt]

/-- C5: for a ledger whose entries are all individually balanced, the
trial balance over any requested window (any combination of absent,
unparsable or parsed bounds, under any current date) has equal grand
debit and credit totals. -/
theorem mizan_balanced_ledger (today : Date)
    (startParam endParam : Option DStr) (entries : List Entry)
    (hbal : ∀ e ∈ entries, totalDebit e.lines = totalCredit e.lines) :
    (mizan today startParam endParam entries).total_debit
      = (mizan today startParam endParam entries).total_credit := by
  have key : ∀ (s e : DStr), ∃ p : Date → Bool,
      mizanFilterLines s e (allLines entries)
        = (allLines entries).filter (fun l => p l.date) := by
    intro s e
    cases s with
    | none => exact ⟨fun _ => true, (List.filter_true _).symm⟩
    | some ds =>
      cases e with
      | none => exact ⟨fun d => Date.le ds d, rfl⟩
      | some de =>
        refine ⟨fun d => Date.le d de && Date.le ds d, ?_⟩
        show ((allLines entries).filter (fun l => Date.le ds l.date)).filter
          (fun l => Date.le l.date de) = _
        rw [List.filter_filter]
  have main : ∀ s e : DStr,
      (mizanCompute (mizanFilterLines s e (allLines entries))).total_debit
        = (mizanCompute (mizanFilterLines s e (allLines entries))).total_credit := by
    intro s e
    rcases key s e with ⟨p, hp⟩
    rw [hp, (mizanCompute_totals _).1, (mizanCompute_totals _).2]
    exact filtered_sums_balanced entries p hbal
  cases startParam <;> cases endParam <;> exact main _ _

/-- Witness for `mizan_balanced_ledger` on the concrete balanced
three-entry ledger over the window 2026-01-01 .. 2026-12-31. -/
theorem mizan_balanced_ledger_witness :
    (mizan ⟨2026, 12, 31⟩ (some (some ⟨2026, 1, 1⟩))
        (some (some ⟨2026, 12, 31⟩)) sampleEntries).total_debit
      = (mizan ⟨2026, 12, 31⟩ (some (some ⟨2026, 1, 1⟩))
        (some (some ⟨2026, 12, 31⟩)) sampleEntries).total_credit :=
  mizan_balanced_ledger ⟨2026, 12, 31⟩ (some (some ⟨2026, 1, 1⟩))
    (some (some ⟨2026, 12, 31⟩)) sampleEntries (by decide)

/-- The single-pass if/elif loop of `generate_income_statement` agrees
with the declarative classification by `classifyAmended`: income rows,
expense rows, and both totals. -/
theorem isLoop_eq (ls : List JLine)
    (keys : List (String × String × AccountType)) :
    isLoop ls keys =
      (keys.filterMap (fun k =>
        if classifyAmended k.1 k.2.2 = Cls.income
            ∧ groupCredit ls k - groupDebit ls k ≠ 0 then
          some ⟨k.1, k.2.1, groupCredit ls k - groupDebit ls k⟩
        else none),
      keys.filterMap (fun k =>
        if classifyAmended k.1 k.2.2 = Cls.expense
            ∧ groupDebit ls k - groupCredit ls k ≠ 0 then
          some ⟨k.1, k.2.1, groupDebit ls k - groupCredit ls k⟩
        else none),
      (keys.map (fun k =>
        if classifyAmended k.1 k.2.2 = Cls.income then
          groupCredit ls k - groupDebit ls k
        else 0)).sum,
      (keys.map (fun k =>
        if classifyAmended k.1 k.2.2 = Cls.expense then
          groupDebit ls k - groupCredit ls k
        else 0)).sum) := by
  induction keys with
  | nil => rfl
  | cons k ks ih =>
    cases hinc : (codeStarts k.1 "6" || decide (k.2.2 = AccountType.income)) with
    | true =>
      have hc : classifyAmended k.1 k.2.2 = Cls.income := by
        simp [classifyAmended, hinc]
      by_cases hz : groupCredit ls k - groupDebit ls k = 0
      · simp [isLoop, ih, hinc, hz, hc]
      · simp [isLoop, ih, hinc, hz, hc]
    | false =>
      cases hexp : (codeStarts k.1 "7" || decide (k.2.2 = AccountType.expense)) with
      | true =>
        have hc : classifyAmended k.1 k.2.2 = Cls.expense := by
          simp [classifyAmended, hinc, hexp]
        by_cases hz : groupDebit ls k - groupCredit ls k = 0
        · simp [isLoop, ih, hinc, hexp, hz, hc]
        · simp [isLoop, ih, hinc, hexp, hz, hc]
      | false =>
        have hc : classifyAmended k.1 k.2.2 = Cls.excluded := by
          simp [classifyAmended, hinc, hexp]
        simp [isLoop, ih, hinc, hexp, hc]

/-- C7 amended: the income statement equals the declarative statement
whose classifier tests the income rule (code prefix "6" or type INCOME)
first and the expense rule (code prefix "7" or type EXPENSE) only
otherwise; amounts are Σcredit − Σdebit for income and Σdebit − Σcredit
for expense, zero-amount accounts are omitted from the line items but
count as zero in the totals, `net_result = total_income − total_expense`
and `is_profit = (net_result ≥ 0)`. -/
theorem income_statement_amended (ls : List JLine) (year : Nat) :
    generate_income_statement ls year
      = specIncomeStatement classifyAmended ls year := by
  simp only [generate_income_statement, specIncomeStatement]
  rw [isLoop_eq]

/-- C7 counterexample: an account with code "700" but type INCOME is
classified as income (amount Σcredit − Σdebit = 100) by the code, while
prefix precedence as the claim states it would classify it as expense
(amount Σdebit − Σcredit = −100); the two results differ. -/
theorem income_statement_prefix_precedence_fails :
    (generate_income_statement
        [⟨⟨2026, 6, 1⟩, ⟨"700", "Misc", .income⟩, 0, 100⟩] 2026).incomes
      = [⟨"700", "Misc", 100⟩]
    ∧ (generate_income_statement
        [⟨⟨2026, 6, 1⟩, ⟨"700", "Misc", .income⟩, 0, 100⟩] 2026).expenses = []
    ∧ (specIncomeStatement classifyClaim
        [⟨⟨2026, 6, 1⟩, ⟨"700", "Misc", .income⟩, 0, 100⟩] 2026).incomes = []
    ∧ (specIncomeStatement classifyClaim
        [⟨⟨2026, 6, 1⟩, ⟨"700", "Misc", .income⟩, 0, 100⟩] 2026).expenses
      = [⟨"700", "Misc", -100⟩]
    ∧ generate_income_statement
        [⟨⟨2026, 6, 1⟩, ⟨"700", "Misc", .income⟩, 0, 100⟩] 2026
      ≠ specIncomeStatement classifyClaim
        [⟨⟨2026, 6, 1⟩, ⟨"700", "Misc", .income⟩, 0, 100⟩] 2026 := by
  decide

/-- Entry-id monotonicity along the backfill's iteration order. -/
theorem migOrder_entryId_le {a b : MigLine} (h : migOrder a b) :
    a.entryId ≤ b.entryId := by
  unfold migOrder at h
  omega

/-- The numbering pass preserves each line's identity pair. -/
theorem numberLines_keys :
    ∀ (s : List MigLine) (cur : Option Nat) (k : Nat),
      (numberLines cur k s).map (fun l => (l.entryId, l.id))
        = s.map (fun l => (l.entryId, l.id))
  | [], _, _ => rfl
  | a :: t, cur, k => by
    simp [numberLines, numberLines_keys t]

/-- The numbering pass preserves the number of lines of each entry. -/
theorem numberLines_filter_length (e : Nat) :
    ∀ (s : List MigLine) (cur : Option Nat) (k : Nat),
      ((numberLines cur k s).filter (fun l => l.entryId = e)).length
        = (s.filter (fun l => l.entryId = e)).length
  | [], _, _ => rfl
  | a :: t, cur, k => by
    by_cases hae : a.entryId = e <;>
      simp [numberLines, List.filter_cons, hae, numberLines_filter_length e t]


theorem numberLines_range (e : Nat) :
    ∀ (s : List MigLine),
      s.Pairwise (fun a b => a.entryId ≤ b.entryId) →
      ∀ (cur : Option Nat) (k : Nat),
        ((numberLines cur k s).filter (fun l => l.entryId = e)).map (·.line_no)
          = List.range' (startIndex e cur k s)
              ((s.filter (fun l => l.entryId = e)).length)
  | [], _, _, _ => rfl
  | a :: t, hpw, cur, k => by
    rcases List.pairwise_cons.mp hpw with ⟨ha, ht⟩
    have ih := numberLines_range e t ht (some a.entryId)
      (if cur = some a.entryId then k + 1 else 1)
    by_cases hae : a.entryId = e
    · subst hae
      cases t with
      | nil =>
        by_cases hcur : cur = some a.entryId <;>
          simp [numberLines, List.filter_cons, startIndex, hcur, List.range']
      | cons b t' =>
        by_cases hbe : b.entryId = a.entryId
        · have hstart : startIndex a.entryId (some a.entryId)
              (if cur = some a.entryId then k + 1 else 1) (b :: t')
              = (if cur = some a.entryId then k + 1 else 1) + 1 := by
            simp [startIndex, hbe]
          rw [numberLines]
          rw [List.filter_cons, List.filter_cons]
          by_cases hcur : cur = some a.entryId <;>
            simp only [hcur, startIndex, hbe, List.filter_cons, List.range',
              if_pos, and_true, and_self, reduceIte] at ih ⊢ <;>
            simp [hcur, hbe, List.filter_cons, List.range', ih]
        · have hnone : (b :: t').filter (fun l => l.entryId = a.entryId) = [] := by
            rw [List.filter_eq_nil_iff]
            intro x hx
            rcases List.mem_cons.mp hx with rfl | hx'
            · simp [hbe]
            · have h1 : a.entryId ≤ b.entryId := ha b (List.mem_cons_self b t')
              have h2 : b.entryId ≤ x.entryId := (List.pairwise_cons.mp ht).1 x hx'
              simp only [decide_eq_true_iff]
              omega
          by_cases hcur : cur = some a.entryId <;>
            simp only [hcur, startIndex, hbe, hnone, List.filter_cons, List.range',
              reduceIte] at ih ⊢ <;>
            (rw [numberLines]; simp [List.filter_cons, hcur, ih])
    · have hstart2 : startIndex e (some a.entryId)
          (if cur = some a.entryId then k + 1 else 1) t = 1 := by
        cases t with
        | nil => rfl
        | cons b t' =>
          by_cases hbe : b.entryId = e
          · have hne : (some a.entryId : Option Nat) ≠ some e := by
              intro h
              exact hae (Option.some.inj h)
            simp [startIndex, hbe, hne]
          · simp [startIndex, hbe]
      have hstart3 : startIndex e cur k (a :: t) = 1 := by
        simp [startIndex, hae]
      rw [numberLines, hstart3]
      simp [List.filter_cons, hae, ih, hstart2]

/-- Renumbering an already numbered list assigns the same numbers. -/
theorem numberLines_idem :
    ∀ (s : List MigLine) (cur : Option Nat) (k : Nat),
      numberLines cur k (numberLines cur k s) = numberLines cur k s
  | [], _, _ => rfl
  | a :: t, cur, k => by
    simp [numberLines, numberLines_idem t]

/-- The numbering pass preserves sortedness in the backfill order,
which only reads the identity pair it preserves. -/
theorem numberLines_pairwise (s : List MigLine) (cur : Option Nat) (k : Nat)
    (h : s.Pairwise migOrder) : (numberLines cur k s).Pairwise migOrder := by
  have hmap := numberLines_keys s cur k
  have h1 : (s.map (fun l => (l.entryId, l.id))).Pairwise
      (fun p q => p.1 < q.1 ∨ (p.1 = q.1 ∧ p.2 ≤ q.2)) := by
    rw [List.pairwise_map]
    exact h
  have h2 : ((numberLines cur k s).map (fun l => (l.entryId, l.id))).Pairwise
      (fun p q => p.1 < q.1 ∨ (p.1 = q.1 ∧ p.2 ≤ q.2)) := by
    rw [hmap]
    exact h1
  rw [List.pairwise_map] at h2
  exact h2

/-- Running the backfill twice equals running it once. -/
theorem forwards_idem (ls : List MigLine) :
    forwards (forwards ls) = forwards ls := by
  unfold forwards
  have hsorted : (List.insertionSort migOrder ls).Pairwise migOrder :=
    List.sorted_insertionSort migOrder ls
  have hout : (numberLines none 0 (List.insertionSort migOrder ls)).Pairwise migOrder :=
    numberLines_pairwise _ none 0 hsorted
  rw [List.Sorted.insertionSort_eq hout]
  exact numberLines_idem _ none 0

/-- C8: after the backfill every entry's lines carry exactly the
`line_no` values 1, …, N (N the entry's line count), consecutively in
the backfill's (entry id, line id) order, and a second run of the
backfill is the identity on its output. -/
theorem backfill_spec (ls : List MigLine) (e : Nat) :
    ((forwards ls).filter (fun l => l.entryId = e)).map (·.line_no)
      = List.range' 1 ((forwards ls).filter (fun l => l.entryId = e)).length
    ∧ forwards (forwards ls) = forwards ls := by
  constructor
  · unfold forwards
    have hsorted : (List.insertionSort migOrder ls).Pairwise migOrder :=
      List.sorted_insertionSort migOrder ls
    have hpw : (List.insertionSort migOrder ls).Pairwise
        (fun a b => a.entryId ≤ b.entryId) :=
      hsorted.imp (fun h => migOrder_entryId_le h)
    have h := numberLines_range e (List.insertionSort migOrder ls) hpw none 0
    have hstart : startIndex e none 0 (List.insertionSort migOrder ls) = 1 := by
      cases List.insertionSort migOrder ls with
      | nil => rfl
      | cons a t => simp [startIndex]
    rw [h, hstart, numberLines_filter_length]
  · exact forwards_idem ls

end MBSIS
